import Mathlib

/-!
Shallow embedding of the itinerary-generator backend
(`src/backend/src/firestore.js`, `src/backend/src/types.js`,
`src/backend/src/llm.js`, `src/backend/src/utils.js` and the worker entry
point) together with proofs about the claims of the specification.

Conventions of the embedding:
* JavaScript runtime values that can appear in a job document are the
  inductive `JSVal`; numbers are split into whole numbers (`vInt`,
  the branch `Number.isInteger(value)` of the source) and non-whole
  doubles (`vDouble`, carried by an exact rational to keep equality
  decidable; the codec passes doubles through unchanged, so the carrier
  does not matter).
* The decimal-text serialization of `integerValue` (`value.toString()` /
  `parseInt`) and the ISO-8601 serialization of `timestampValue`
  (`toISOString()` / `new Date(...)`) are abstracted to the identity on
  the underlying `Int`: both serializations are injective and inverted
  exactly by their parse on this domain.
* `undefined` is `vUndefined`; an object key bound to it matches no branch of
  `convertToFirestoreFields` and is dropped, exactly as in the source.
-/

/-- JavaScript values as they occur in document data. -/
inductive JSVal where
  | vNull
  | vUndefined
  | vStr (s : String)
  | vInt (n : Int)
  | vDouble (d : Rat)
  | vBool (b : Bool)
  | vDate (ms : Int)
  | vArr (elems : List JSVal)
  | vObj (fields : List (String × JSVal))

/-- Firestore wire values (the tagged union of the REST value encoding).
`unknownValue tag` stands for a wire value carrying a tag that the decoder
of `firestore.js` does not test for (for example `geoPointValue`);
`jsUndefined` stands for the `undefined` slot that the source's `temp`
trick leaves in an encoded array when the item matches no branch. -/
inductive WireVal where
  | nullValue
  | stringValue (s : String)
  | integerValue (n : Int)
  | doubleValue (d : Rat)
  | booleanValue (b : Bool)
  | timestampValue (ms : Int)
  | arrayValue (values : List WireVal)
  | mapValue (fields : List (String × WireVal))
  | unknownValue (tag : String)
  | jsUndefined

mutual

/-- The if/else-chain of `convertToFirestoreFields` applied to one value:
`some w` when some branch matches, `none` when no branch matches (then the
key is simply never assigned in `fields`). -/
def encodeValue? : JSVal → Option WireVal
  | .vNull => some .nullValue
  | .vStr s => some (.stringValue s)
  | .vInt n => some (.integerValue n)
  | .vDouble d => some (.doubleValue d)
  | .vBool b => some (.booleanValue b)
  | .vDate ms => some (.timestampValue ms)
  | .vArr xs => some (.arrayValue (encodeItems xs))
  | .vObj fs => some (.mapValue (convertToFirestoreFields fs))
  | .vUndefined => none

/-- `value.map(...)` of the array branch of `convertToFirestoreFields`. -/
def encodeItems : List JSVal → List WireVal
  | [] => []
  | x :: xs => encodeItem x :: encodeItems xs

/-- One array item: `typeof item === "object" && item !== null` (which is
true of dates, arrays and plain objects) wraps the item's `Object.entries`
as a `mapValue`; anything else goes through
`convertToFirestoreFields({temp: item}).temp`, which is `jsUndefined` when
no branch matches. `Object.entries` of a `Date` is empty; of an array it
is the index-keyed entries, encoded here by `encodeIndexedEntries`. -/
def encodeItem : JSVal → WireVal
  | .vDate _ => .mapValue []
  | .vArr ys => .mapValue (encodeIndexedEntries 0 ys)
  | .vObj fs => .mapValue (convertToFirestoreFields fs)
  | .vNull => .nullValue
  | .vStr s => .stringValue s
  | .vInt n => .integerValue n
  | .vDouble d => .doubleValue d
  | .vBool b => .booleanValue b
  | .vUndefined => .jsUndefined

/-- `convertToFirestoreFields` on `Object.entries` of an array: the keys
are the decimal indices. -/
def encodeIndexedEntries : Nat → List JSVal → List (String × WireVal)
  | _, [] => []
  | i, v :: vs =>
    match encodeValue? v with
    | some w => (toString i, w) :: encodeIndexedEntries (i + 1) vs
    | none => encodeIndexedEntries (i + 1) vs

/-- `convertToFirestoreFields(obj)`: each entry whose value matches a
branch is assigned; entries matching no branch are dropped. -/
def convertToFirestoreFields : List (String × JSVal) → List (String × WireVal)
  | [] => []
  | (k, v) :: rest =>
    match encodeValue? v with
    | some w => (k, w) :: convertToFirestoreFields rest
    | none => convertToFirestoreFields rest

end

mutual

/-- The if/else-chain of `convertFromFirestoreFields` applied to one
tagged value; `none` when no tag matches (the source then never assigns
`obj[key]`, silently dropping the field). -/
def decodeValue? : WireVal → Option JSVal
  | .nullValue => some .vNull
  | .stringValue s => some (.vStr s)
  | .integerValue n => some (.vInt n)
  | .doubleValue d => some (.vDouble d)
  | .booleanValue b => some (.vBool b)
  | .timestampValue ms => some (.vDate ms)
  | .arrayValue vs => some (.vArr (decodeItems vs))
  | .mapValue fs => some (.vObj (convertFromFirestoreFields fs))
  | .unknownValue _ => none
  | .jsUndefined => none

/-- `value.arrayValue.values.map(...)` of the decoder. -/
def decodeItems : List WireVal → List JSVal
  | [] => []
  | w :: ws => decodeItem w :: decodeItems ws

/-- One array item of the decoder: `item.mapValue` is decoded recursively;
anything else goes through `convertFromFirestoreFields({temp: item}).temp`,
which is `undefined` when no tag matches. -/
def decodeItem : WireVal → JSVal
  | .mapValue fs => .vObj (convertFromFirestoreFields fs)
  | w =>
    match decodeValue? w with
    | some v => v
    | none => .vUndefined

/-- `convertFromFirestoreFields(fields)`: each entry whose value carries a
recognized tag is assigned; an unrecognized tag leaves `obj[key]`
unassigned, so the entry is dropped. -/
def convertFromFirestoreFields : List (String × WireVal) → List (String × JSVal)
  | [] => []
  | (k, w) :: rest =>
    match decodeValue? w with
    | some v => (k, v) :: convertFromFirestoreFields rest
    | none => convertFromFirestoreFields rest

end

mutual

/-- Field values for which the codec round-trips: every native value of
the data model, except that timestamps and nested lists may not appear
directly inside a list (the array branch of the encoder wraps any
object-typed item — dates and arrays included — as a `mapValue` of its
`Object.entries`, which the decoder returns as a plain object). -/
inductive GoodVal : JSVal → Prop where
  | null : GoodVal .vNull
  | str : ∀ s, GoodVal (.vStr s)
  | int : ∀ n, GoodVal (.vInt n)
  | double : ∀ d, GoodVal (.vDouble d)
  | bool : ∀ b, GoodVal (.vBool b)
  | date : ∀ ms, GoodVal (.vDate ms)
  | arr : ∀ xs, GoodElems xs → GoodVal (.vArr xs)
  | obj : ∀ fs, GoodFields fs → GoodVal (.vObj fs)

/-- List elements for which the codec round-trips. -/
inductive GoodElem : JSVal → Prop where
  | null : GoodElem .vNull
  | str : ∀ s, GoodElem (.vStr s)
  | int : ∀ n, GoodElem (.vInt n)
  | double : ∀ d, GoodElem (.vDouble d)
  | bool : ∀ b, GoodElem (.vBool b)
  | obj : ∀ fs, GoodFields fs → GoodElem (.vObj fs)

/-- All elements of a list are good. -/
inductive GoodElems : List JSVal → Prop where
  | nil : GoodElems []
  | cons : ∀ x xs, GoodElem x → GoodElems xs → GoodElems (x :: xs)

/-- All field values of an object are good. -/
inductive GoodFields : List (String × JSVal) → Prop where
  | nil : GoodFields []
  | cons : ∀ k v rest, GoodVal v → GoodFields rest → GoodFields ((k, v) :: rest)

end

/-- First-match lookup of a key among an object's entries (objects built
by `JSON.parse` or object literals carry each key at most once). -/
def lookupField : List (String × JSVal) → String → Option JSVal
  | [], _ => none
  | (k, v) :: rest, key => if k = key then some v else lookupField rest key

/-- First-match lookup among encoded wire fields. -/
def lookupWire : List (String × WireVal) → String → Option WireVal
  | [], _ => none
  | (k, w) :: rest, key => if k = key then some w else lookupWire rest key

/-! ## Schemas (`src/backend/src/types.js`) -/

/-- `z.enum(["Morning", "Afternoon", "Evening"])`. -/
def timeSlots : List String := ["Morning", "Afternoon", "Evening"]

/-- `ActivitySchema`: `time` one of the three slots, `description` and
`location` non-empty strings. -/
def ActivitySchema (v : JSVal) : Bool :=
  match v with
  | .vObj fs =>
    (match lookupField fs "time" with
     | some (.vStr t) => timeSlots.contains t
     | _ => false) &&
    (match lookupField fs "description" with
     | some (.vStr s) => decide (1 ≤ s.length)
     | _ => false) &&
    (match lookupField fs "location" with
     | some (.vStr s) => decide (1 ≤ s.length)
     | _ => false)
  | _ => false

/-- `DaySchema`: `day` a positive integer (`z.number().int().positive()`,
so a whole number greater than zero), `theme` a non-empty string,
`activities` an array of `ActivitySchema` with at least one element
(`.min(1, "At least one activity is required")`). -/
def DaySchema (v : JSVal) : Bool :=
  match v with
  | .vObj fs =>
    (match lookupField fs "day" with
     | some (.vInt n) => decide (0 < n)
     | _ => false) &&
    (match lookupField fs "theme" with
     | some (.vStr s) => decide (1 ≤ s.length)
     | _ => false) &&
    (match lookupField fs "activities" with
     | some (.vArr acts) => decide (1 ≤ acts.length) && acts.all ActivitySchema
     | _ => false)
  | _ => false

/-- `ItinerarySchema`: a non-empty array of `DaySchema`. -/
def ItinerarySchema (v : JSVal) : Bool :=
  match v with
  | .vArr days => decide (1 ≤ days.length) && days.all DaySchema
  | _ => false

/-- `RequestSchema.parse`: `destination` a non-empty string,
`durationDays` a whole number in `[1, 30]`; `some (destination,
durationDays)` on success, `none` when validation throws. -/
def RequestSchema (v : JSVal) : Option (String × Int) :=
  match v with
  | .vObj fs =>
    match lookupField fs "destination", lookupField fs "durationDays" with
    | some (.vStr d), some (.vInt n) =>
      if 1 ≤ d.length ∧ 1 ≤ n ∧ n ≤ 30 then some (d, n) else none
    | _, _ => none
  | _ => none

/-! ## Retry policy (`src/backend/src/utils.js`, `retryWithBackoff`) -/

/-- The retry loop of `retryWithBackoff`, instrumented: the i-th
invocation of `fn` is `op i`; the result records the outcome, the number
of invocations made, and the total milliseconds slept. `remaining` is
`maxRetries - attempt`, so `0 < remaining` is the source's
`attempt < maxRetries`. -/
def retryGo {E A : Type} (op : Nat → Except E A) (isRetryable : E → Bool)
    (baseDelay attempt remaining : Nat) : Except E A × Nat × Nat :=
  match op attempt with
  | .ok a => (.ok a, 1, 0)
  | .error e =>
    if h : isRetryable e = true ∧ 0 < remaining then
      let rest := retryGo op isRetryable baseDelay (attempt + 1) (remaining - 1)
      (rest.1, rest.2.1 + 1, rest.2.2 + baseDelay * 2 ^ attempt)
    else (.error e, 1, 0)
termination_by remaining
decreasing_by exact Nat.sub_lt h.2 Nat.one_pos

/-- `retryWithBackoff(fn, maxRetries, baseDelay, retryableError)`:
invoke `fn` up to `maxRetries + 1` times, sleeping
`baseDelay * 2 ^ attempt` after each retryable failure that still has
attempts remaining, and rethrow the last error otherwise. -/
def retryWithBackoff {E A : Type} (op : Nat → Except E A)
    (maxRetries baseDelay : Nat) (isRetryable : E → Bool) :
    Except E A × Nat × Nat :=
  retryGo op isRetryable baseDelay 0 maxRetries

/-! ## Generation client (`src/backend/src/llm.js`) -/

/-- Errors thrown by one generation attempt; `retryable` embeds the
`RetryableError` subclass, `fatal` a plain `Error`. -/
inductive GenError where
  | retryable (msg : String)
  | fatal (msg : String)

/-- `error instanceof RetryableError`. -/
def GenError.isRetryableError : GenError → Bool
  | .retryable _ => true
  | .fatal _ => false

/-- The observable outcome of the chat-completion HTTP call:
a non-2xx response with its status and body text, or a 2xx response
carrying `data.choices[0]?.message?.content?.trim()` (`none` when the
optional chain finds nothing). -/
inductive LLMResponse where
  | httpError (status : Nat) (body : String)
  | ok (content : Option String)

/-- `content.substring(a, b)` of JavaScript: indices are clamped to the
text and swapped when `a > b`. -/
def jsSubstring (s : String) (a b : Nat) : String :=
  String.mk ((s.data.drop (min a b)).take (max a b - min a b))

/-- `text.indexOf(ch)` over the character list: the first index carrying
`ch`, `none` for JavaScript's `-1`. -/
def indexOfChar (ch : Char) : List Char → Option Nat
  | [] => none
  | c :: cs => if c = ch then some 0 else (indexOfChar ch cs).map (· + 1)

/-- Locate the first `[` (`content.indexOf`) and the last `]`
(`content.lastIndexOf`, found here as the first in the reversed text) and
take the enclosed substring; `none` when either bracket is absent
(`startIndex === -1 || endIndex === -1`). -/
def extractBracket (content : String) : Option String :=
  let cs := content.data
  match indexOfChar '[' cs, indexOfChar ']' cs.reverse with
  | some startIndex, some revIdx =>
    let endIndex := cs.length - 1 - revIdx
    some (jsSubstring content startIndex (endIndex + 1))
  | _, _ => none

/-- One attempt of `generateItinerary`'s `generateFn`, as a function of
the service response. `parseJSON` stands for `JSON.parse` (`none` when
parsing throws) and `validationDiag` for the message zod attaches to a
failed `ItinerarySchema.parse`; both are external library behavior the
classification is parameterized by. The source message prefix for a
validation failure is written with a contraction; it is carried here
verbatim up to that apostrophe-free spelling. -/
def generateAttempt (parseJSON : String → Option JSVal)
    (validationDiag : JSVal → String) : LLMResponse → Except GenError JSVal
  | .httpError status body =>
    if status = 429 ∨ 500 ≤ status then
      .error (.retryable ("OpenAI service error: " ++ toString status))
    else
      .error (.fatal ("OpenAI API error: " ++ toString status ++ " - " ++ body))
  | .ok content? =>
    match content? with
    | none => .error (.fatal "Invalid response structure from OpenAI API")
    | some content =>
      if content = "" then
        .error (.fatal "Invalid response structure from OpenAI API")
      else
        match extractBracket content with
        | none => .error (.retryable "LLM response did not contain a valid JSON array.")
        | some jsonString =>
          match parseJSON jsonString with
          | none => .error (.retryable "LLM returned invalid JSON format even after cleaning.")
          | some itinerary =>
            if ItinerarySchema itinerary then .ok itinerary
            else .error (.retryable
              ("Generated itinerary does not match required format: " ++
                validationDiag itinerary))

/-! ## Backing store client (`src/backend/src/firestore.js`) -/

/-- A stored document: its top-level wire fields by name. -/
def StoreDoc : Type := String → Option WireVal

/-- `updateDocument` builds its `updateMask.fieldPaths` query from
`Object.keys(data)`: the mask names exactly the top-level keys of the
supplied fields. -/
def updateMaskKeys (data : List (String × JSVal)) : List String :=
  data.map Prod.fst

/-- Modelled from the spec: the backing store's masked-patch contract
(the store itself is external to the repository) — a PATCH carrying a
field mask touches exactly the masked fields, setting each to the
supplied encoded value (removing it when the mask names a key the encoded
fields lack) and leaving every unmasked field untouched. -/
def applyMaskedPatch (doc : StoreDoc) (mask : List String)
    (fields : List (String × WireVal)) : StoreDoc :=
  fun k => if mask.contains k then lookupWire fields k else doc k

/-- `updateDocument(collection, id, data)`: encode `data` and PATCH it
under a mask naming exactly the keys of `data`. -/
def updateDocument (doc : StoreDoc) (data : List (String × JSVal)) : StoreDoc :=
  applyMaskedPatch doc (updateMaskKeys data) (convertToFirestoreFields data)

/-- `createDocument(collection, id, data)`: the stored document holds
exactly the encoded fields. -/
def createDocument (data : List (String × JSVal)) : StoreDoc :=
  fun k => lookupWire (convertToFirestoreFields data) k

/-! ## Job orchestrator (the worker entry point) -/

/-- The initial job document written synchronously by `fetch`. -/
def initialData (destination : String) (durationDays : Int) (now : Int) :
    List (String × JSVal) :=
  [("status", .vStr "processing"), ("destination", .vStr destination),
   ("durationDays", .vInt durationDays), ("createdAt", .vDate now),
   ("completedAt", .vNull), ("itinerary", .vNull), ("error", .vNull)]

/-- The fields of the success update of `processItinerary`. -/
def completedData (destination : String) (durationDays : Int) (tDone : Int)
    (itinerary : JSVal) : List (String × JSVal) :=
  [("status", .vStr "completed"), ("destination", .vStr destination),
   ("durationDays", .vInt durationDays), ("completedAt", .vDate tDone),
   ("itinerary", itinerary), ("error", .vNull)]

/-- The fields of the failure update of `processItinerary`. -/
def failedData (tFail : Int) (msg : String) : List (String × JSVal) :=
  [("status", .vStr "failed"), ("completedAt", .vDate tFail),
   ("error", .vStr msg)]

/-- The environment one background run observes: the outcome of
`generateItinerary` (an error carries `error.message`), whether each of
the two possible document updates succeeds against the store,
`error.message` of a failing completed-update, and the `new Date()`
values of the two paths. -/
structure BackgroundEnv where
  genResult : Except String JSVal
  completedOk : Bool
  failedOk : Bool
  storeMsg : String
  tDone : Int
  tFail : Int

/-- The body of the outer `try` of `processItinerary`: generate, then
write the completed update; either step may throw, carrying its
message. -/
def processTryBody (destination : String) (durationDays : Int)
    (env : BackgroundEnv) : Except String (List (List (String × JSVal))) :=
  match env.genResult with
  | .error msg => .error msg
  | .ok itinerary =>
    if env.completedOk then
      .ok [completedData destination durationDays env.tDone itinerary]
    else .error env.storeMsg

/-- The `catch` of `processItinerary`: write the failed update inside an
inner try/catch; a failure of even that write is logged and swallowed,
applying nothing. -/
def processCatch (env : BackgroundEnv) (msg : String) :
    List (List (String × JSVal)) :=
  if env.failedOk then [failedData env.tFail msg] else []

/-- The document updates one background run applies. The function is
total — every exception of the body is handled by the catch, and the
catch swallows its own write failure — so a background run never
propagates an error. -/
def processItineraryUpdates (destination : String) (durationDays : Int)
    (env : BackgroundEnv) : List (List (String × JSVal)) :=
  match processTryBody destination durationDays env with
  | .ok updates => updates
  | .error msg => processCatch env msg

/-- The document state after one background run. -/
def processItinerary (doc : StoreDoc) (destination : String)
    (durationDays : Int) (env : BackgroundEnv) : StoreDoc :=
  (processItineraryUpdates destination durationDays env).foldl updateDocument doc

/-- The job-document states reachable for one job: the state written at
creation, and every state the background task's run produces from it.
`generateItinerary` only ever returns an `ItinerarySchema`-validated
value, so a successful `genResult` is constrained to one. -/
inductive ReachableDoc (destination : String) (durationDays : Int) :
    StoreDoc → Prop where
  | created : ∀ now : Int,
      ReachableDoc destination durationDays
        (createDocument (initialData destination durationDays now))
  | processed : ∀ (now : Int) (env : BackgroundEnv),
      (∀ itin, env.genResult = .ok itin → ItinerarySchema itin = true) →
      ReachableDoc destination durationDays
        (processItinerary (createDocument (initialData destination durationDays now))
          destination durationDays env)

/-- The caller-visible outcome of the synchronous phase of `fetch`. -/
inductive WorkerResponse where
  | accepted (status : Nat)
  | errorResponse (status : Nat) (message : String)

/-- The synchronous phase of `fetch` for a parsed POST body: validate
against `RequestSchema`; on failure answer 400 with the zod diagnostic
(`zodDiag`) and create nothing; on success create the initial document
and answer 202. The result pairs the response with the list of documents
created. -/
def handleCreate (zodDiag : String) (body : JSVal) (now : Int) :
    WorkerResponse × List (List (String × JSVal)) :=
  match RequestSchema body with
  | none => (.errorResponse 400 ("Invalid request: " ++ zodDiag), [])
  | some (destination, durationDays) =>
    (.accepted 202, [initialData destination durationDays now])

mutual

/-- Round trip of a single good field value through the codec. -/
theorem roundtripVal : ∀ v : JSVal, GoodVal v →
    ∃ w, encodeValue? v = some w ∧ decodeValue? w = some v
  | .vNull, _ => ⟨.nullValue, by simp [encodeValue?], by simp [decodeValue?]⟩
  | .vStr s, _ => ⟨.stringValue s, by simp [encodeValue?], by simp [decodeValue?]⟩
  | .vInt n, _ => ⟨.integerValue n, by simp [encodeValue?], by simp [decodeValue?]⟩
  | .vDouble d, _ => ⟨.doubleValue d, by simp [encodeValue?], by simp [decodeValue?]⟩
  | .vBool b, _ => ⟨.booleanValue b, by simp [encodeValue?], by simp [decodeValue?]⟩
  | .vDate ms, _ => ⟨.timestampValue ms, by simp [encodeValue?], by simp [decodeValue?]⟩
  | .vArr xs, h => by
    cases h with
    | arr _ hxs =>
      exact ⟨.arrayValue (encodeItems xs), by simp [encodeValue?],
        by simp [decodeValue?, roundtripElems xs hxs]⟩
  | .vObj fs, h => by
    cases h with
    | obj _ hfs =>
      exact ⟨.mapValue (convertToFirestoreFields fs), by simp [encodeValue?],
        by simp [decodeValue?, roundtripFields fs hfs]⟩

/-- Round trip of a single good list element through the codec. -/
theorem roundtripElem : ∀ v : JSVal, GoodElem v → decodeItem (encodeItem v) = v
  | .vNull, _ => by simp [encodeItem, decodeItem, decodeValue?]
  | .vStr s, _ => by simp [encodeItem, decodeItem, decodeValue?]
  | .vInt n, _ => by simp [encodeItem, decodeItem, decodeValue?]
  | .vDouble d, _ => by simp [encodeItem, decodeItem, decodeValue?]
  | .vBool b, _ => by simp [encodeItem, decodeItem, decodeValue?]
  | .vObj fs, h => by
    cases h with
    | obj _ hfs => simp [encodeItem, decodeItem, roundtripFields fs hfs]

/-- Round trip of a list of good elements through the codec. -/
theorem roundtripElems : ∀ xs : List JSVal, GoodElems xs →
    decodeItems (encodeItems xs) = xs
  | [], _ => by simp [encodeItems, decodeItems]
  | x :: xs, h => by
    cases h with
    | cons _ _ hx hxs =>
      simp [encodeItems, decodeItems, roundtripElem x hx, roundtripElems xs hxs]

/-- Round trip of a good field set through the codec. -/
theorem roundtripFields : ∀ fs : List (String × JSVal), GoodFields fs →
    convertFromFirestoreFields (convertToFirestoreFields fs) = fs
  | [], _ => by simp [convertToFirestoreFields, convertFromFirestoreFields]
  | (k, v) :: rest, h => by
    cases h with
    | cons _ _ _ hv hrest =>
      obtain ⟨w, henc, hdec⟩ := roundtripVal v hv
      simp [convertToFirestoreFields, henc, convertFromFirestoreFields, hdec,
        roundtripFields rest hrest]

end

/-- C2 counterexample: the round-trip law fails on the allowed domain.
A timestamp directly inside a list is encoded as `mapValue` of its
(empty) `Object.entries` and decodes to an empty object, and a list
directly inside a list is encoded as `mapValue` of its index-keyed
entries and decodes to an object with keys "0", "1", …. -/
theorem convert_roundtrip_counterexample :
    convertFromFirestoreFields (convertToFirestoreFields
        [("a", .vArr [.vDate 0])]) ≠ [("a", .vArr [.vDate 0])] ∧
    convertFromFirestoreFields (convertToFirestoreFields
        [("b", .vArr [.vArr [.vInt 1]])]) ≠ [("b", .vArr [.vArr [.vInt 1]])] := by
  constructor <;>
    simp [convertToFirestoreFields, encodeValue?, encodeItems, encodeItem,
      encodeIndexedEntries, convertFromFirestoreFields, decodeValue?, decodeItems,
      decodeItem]

/-- C2 (amended): `decode(encode(v)) == v` holds for every object drawn
from the allowed value domain *minus timestamps and lists nested directly
inside lists*: null, strings, integers, doubles, booleans and timestamps
as field values; lists whose elements are null, strings, integers,
doubles, booleans or maps; and maps, nested arbitrarily, of the same
shape. -/
theorem convert_roundtrip_on_good_domain (fs : List (String × JSVal))
    (h : GoodFields fs) :
    convertFromFirestoreFields (convertToFirestoreFields fs) = fs :=
  roundtripFields fs h

/-- Witness for the round-trip theorem at a concrete job-document-like
field set. -/
theorem convert_roundtrip_on_good_domain_witness :
    convertFromFirestoreFields (convertToFirestoreFields
      [("status", .vStr "completed"), ("durationDays", .vInt 4),
       ("completedAt", .vDate 1700000000000), ("error", .vNull),
       ("itinerary", .vArr [.vObj [("day", .vInt 1), ("ok", .vBool true)]]),
       ("score", .vDouble (3 / 2))]) =
      [("status", .vStr "completed"), ("durationDays", .vInt 4),
       ("completedAt", .vDate 1700000000000), ("error", .vNull),
       ("itinerary", .vArr [.vObj [("day", .vInt 1), ("ok", .vBool true)]]),
       ("score", .vDouble (3 / 2))] := by
  have hG : GoodFields
      [("status", .vStr "completed"), ("durationDays", .vInt 4),
       ("completedAt", .vDate 1700000000000), ("error", .vNull),
       ("itinerary", .vArr [.vObj [("day", .vInt 1), ("ok", .vBool true)]]),
       ("score", .vDouble (3 / 2))] := by
    repeat constructor
  exact convert_roundtrip_on_good_domain _ hG

/-! ## C1 — Day/Activity schema validation -/

/-- C1 counterexample: `DaySchema` requires only `.min(1)` activities, so
a day with a single Morning activity (two slots missing) and a day whose
three activities repeat Morning both pass schema validation, and an
itinerary made of such days passes `ItinerarySchema`. -/
theorem DaySchema_slot_coverage_counterexample :
    DaySchema (.vObj [("day", .vInt 1), ("theme", .vStr "Arrival"),
      ("activities", .vArr [.vObj [("time", .vStr "Morning"),
        ("description", .vStr "Walk"), ("location", .vStr "Old town")]])]) = true ∧
    DaySchema (.vObj [("day", .vInt 2), ("theme", .vStr "Museums"),
      ("activities", .vArr
        [.vObj [("time", .vStr "Morning"), ("description", .vStr "A"),
          ("location", .vStr "L1")],
         .vObj [("time", .vStr "Morning"), ("description", .vStr "B"),
          ("location", .vStr "L2")],
         .vObj [("time", .vStr "Evening"), ("description", .vStr "C"),
          ("location", .vStr "L3")]])]) = true ∧
    ItinerarySchema (.vArr [.vObj [("day", .vInt 1), ("theme", .vStr "Arrival"),
      ("activities", .vArr [.vObj [("time", .vStr "Morning"),
        ("description", .vStr "Walk"), ("location", .vStr "Old town")]])]]) = true := by
  refine ⟨?_, ?_, ?_⟩ <;> rfl

/-- C1 (amended): schema validation accepts an itinerary exactly when it
is a non-empty sequence of days, each with a positive integer `day`, a
non-empty `theme`, and a *non-empty* list of activities whose every
element has a `time` among Morning/Afternoon/Evening and non-empty
`description` and `location`; neither an exact count of 3 nor coverage of
the three time slots is required, so days missing a slot or repeating one
still validate. -/
theorem ItinerarySchema_characterization :
    (∀ days : List JSVal, ItinerarySchema (.vArr days) = true ↔
      days ≠ [] ∧ ∀ d ∈ days, DaySchema d = true) ∧
    (∀ (n : Int) (theme : String) (acts : List JSVal),
      DaySchema (.vObj [("day", .vInt n), ("theme", .vStr theme),
        ("activities", .vArr acts)]) = true ↔
      0 < n ∧ 1 ≤ theme.length ∧ acts ≠ [] ∧ ∀ a ∈ acts, ActivitySchema a = true) := by
  constructor
  · intro days
    simp [ItinerarySchema, List.all_eq_true, Nat.one_le_iff_ne_zero,
      List.length_eq_zero, and_comm]
  · intro n theme acts
    simp [DaySchema, lookupField, List.all_eq_true, Nat.one_le_iff_ne_zero,
      List.length_eq_zero, and_assoc]

/-! ## C7 — request validation -/

/-- C7: `RequestSchema` rejects `durationDays` 0 and 31, accepts 1
and 30, rejects a non-whole-number or missing `durationDays` type
mismatch, a missing or empty `destination`; and on any invalid body the
handler answers with an error response and creates no document. -/
theorem RequestSchema_validation_boundary :
    (RequestSchema (.vObj [("destination", .vStr "Kyoto, Japan"),
      ("durationDays", .vInt 0)]) = none) ∧
    (RequestSchema (.vObj [("destination", .vStr "Kyoto, Japan"),
      ("durationDays", .vInt 31)]) = none) ∧
    (RequestSchema (.vObj [("destination", .vStr "Kyoto, Japan"),
      ("durationDays", .vInt 1)]) = some ("Kyoto, Japan", 1)) ∧
    (RequestSchema (.vObj [("destination", .vStr "Kyoto, Japan"),
      ("durationDays", .vInt 30)]) = some ("Kyoto, Japan", 30)) ∧
    (∀ (d : String) (q : Rat), RequestSchema (.vObj [("destination", .vStr d),
      ("durationDays", .vDouble q)]) = none) ∧
    (∀ n : Int, RequestSchema (.vObj [("durationDays", .vInt n)]) = none) ∧
    (∀ n : Int, RequestSchema (.vObj [("destination", .vStr ""),
      ("durationDays", .vInt n)]) = none) ∧
    (∀ (zodDiag : String) (body : JSVal) (now : Int), RequestSchema body = none →
      handleCreate zodDiag body now =
        (.errorResponse 400 ("Invalid request: " ++ zodDiag), [])) ∧
    (∀ (zodDiag : String) (d : String) (n now : Int),
      RequestSchema (.vObj [("destination", .vStr d), ("durationDays", .vInt n)]) =
        some (d, n) →
      handleCreate zodDiag (.vObj [("destination", .vStr d),
        ("durationDays", .vInt n)]) now = (.accepted 202, [initialData d n now])) := by
  refine ⟨by rfl, by rfl, by rfl, by rfl, ?_, ?_, ?_, ?_, ?_⟩
  · intro d q
    simp [RequestSchema, lookupField]
  · intro n
    simp [RequestSchema, lookupField]
  · intro n
    simp [RequestSchema, lookupField]
  · intro zodDiag body now h
    simp [handleCreate, h]
  · intro zodDiag d n now h
    simp [handleCreate, h]

/-- Witness: the boundary input `durationDays = 0` is rejected with a 400
response and no created document, and `durationDays = 4` is accepted. -/
theorem RequestSchema_validation_boundary_witness :
    handleCreate "durationDays: Duration must be at least 1 day"
      (.vObj [("destination", .vStr "Kyoto, Japan"), ("durationDays", .vInt 0)]) 0 =
      (.errorResponse 400
        ("Invalid request: " ++ "durationDays: Duration must be at least 1 day"), []) ∧
    handleCreate "" (.vObj [("destination", .vStr "Kyoto, Japan"),
      ("durationDays", .vInt 4)]) 0 =
      (.accepted 202, [initialData "Kyoto, Japan" 4 0]) := by
  exact ⟨RequestSchema_validation_boundary.2.2.2.2.2.2.2.1 _ _ 0 (by rfl),
    RequestSchema_validation_boundary.2.2.2.2.2.2.2.2 "" "Kyoto, Japan" 4 0 (by rfl)⟩

/-! ## C9 — unrecognized wire tags -/

/-- C9 counterexample: decoding a field set containing an unrecognized
tag does not fail — the decoder matches no branch, never assigns the key,
and returns the remaining fields; there is no decode error at all. -/
theorem convertFrom_unknown_tag_counterexample :
    convertFromFirestoreFields
      [("location", .unknownValue "geoPointValue"), ("status", .stringValue "done")] =
      [("status", .vStr "done")] := by
  simp [convertFromFirestoreFields, decodeValue?]

/-- C9 (amended): decoding recognizes each of the eight wire tags and
recurses into the array and map tags; a field carrying an unrecognized
tag is silently omitted from the decoded object — no error is produced
and the remaining fields decode normally. -/
theorem convertFrom_tag_handling :
    (decodeValue? .nullValue = some .vNull) ∧
    (∀ s, decodeValue? (.stringValue s) = some (.vStr s)) ∧
    (∀ n, decodeValue? (.integerValue n) = some (.vInt n)) ∧
    (∀ d, decodeValue? (.doubleValue d) = some (.vDouble d)) ∧
    (∀ b, decodeValue? (.booleanValue b) = some (.vBool b)) ∧
    (∀ ms, decodeValue? (.timestampValue ms) = some (.vDate ms)) ∧
    (∀ vs, decodeValue? (.arrayValue vs) = some (.vArr (decodeItems vs))) ∧
    (∀ fs, decodeValue? (.mapValue fs) = some (.vObj (convertFromFirestoreFields fs))) ∧
    (∀ tag, decodeValue? (.unknownValue tag) = none) ∧
    (∀ (k tag : String) (rest : List (String × WireVal)),
      convertFromFirestoreFields ((k, .unknownValue tag) :: rest) =
        convertFromFirestoreFields rest) := by
  refine ⟨?_, ?_, ?_, ?_, ?_, ?_, ?_, ?_, ?_, ?_⟩ <;>
    simp [decodeValue?, convertFromFirestoreFields]

/-! ## C10 — encoder totality and key set -/

/-- C10: the encoder is total by construction (it returns a field set for
every input object, throwing nothing), the encoded field set keeps
exactly the keys whose values match an encoding branch — and the only
value matching no branch is `undefined` (null, strings, numbers,
booleans, dates, arrays and objects all match) — while the update mask of
`updateDocument` is built from *all* keys of the input, so a key bound to
`undefined` is named by the mask yet absent from the encoded fields. -/
theorem convertToFirestoreFields_keys_vs_mask :
    (∀ fs : List (String × JSVal),
      (convertToFirestoreFields fs).map Prod.fst =
        (fs.filter (fun p => (encodeValue? p.2).isSome)).map Prod.fst) ∧
    (∀ v : JSVal, (encodeValue? v).isSome = true ↔ v ≠ .vUndefined) ∧
    (∀ fs : List (String × JSVal), updateMaskKeys fs = fs.map Prod.fst) ∧
    (∀ (k : String) (rest : List (String × JSVal)),
      (updateMaskKeys ((k, .vUndefined) :: rest)).contains k = true ∧
      convertToFirestoreFields ((k, .vUndefined) :: rest) = convertToFirestoreFields rest) := by
  refine ⟨?_, ?_, ?_, ?_⟩
  · intro fs
    induction fs with
    | nil => simp [convertToFirestoreFields]
    | cons p rest ih =>
      obtain ⟨k, v⟩ := p
      cases henc : encodeValue? v <;>
        simp [convertToFirestoreFields, henc, List.filter_cons, ih]
  · intro v
    cases v <;> simp [encodeValue?]
  · intro fs
    rfl
  · intro k rest
    constructor
    · simp [updateMaskKeys]
    · simp [convertToFirestoreFields, encodeValue?]

/-! ## C8 — partial updates -/

/-- C8: the update mask names exactly the top-level keys of the supplied
fields, a key outside the supplied fields is untouched by the patch, and
in particular updating with status/error fields leaves previously stored
`destination` and `durationDays` unchanged while setting `status` and
`error`. -/
theorem updateDocument_partial_update :
    (∀ data : List (String × JSVal), updateMaskKeys data = data.map Prod.fst) ∧
    (∀ (doc : StoreDoc) (data : List (String × JSVal)) (k : String),
      k ∉ data.map Prod.fst → updateDocument doc data k = doc k) ∧
    (∀ doc : StoreDoc,
      updateDocument doc [("status", .vStr "failed"), ("error", .vStr "x")]
        "destination" = doc "destination" ∧
      updateDocument doc [("status", .vStr "failed"), ("error", .vStr "x")]
        "durationDays" = doc "durationDays" ∧
      updateDocument doc [("status", .vStr "failed"), ("error", .vStr "x")]
        "status" = some (.stringValue "failed") ∧
      updateDocument doc [("status", .vStr "failed"), ("error", .vStr "x")]
        "error" = some (.stringValue "x")) := by
  have huntouched : ∀ (doc : StoreDoc) (data : List (String × JSVal)) (k : String),
      k ∉ data.map Prod.fst → updateDocument doc data k = doc k := by
    intro doc data k hk
    simp [updateDocument, applyMaskedPatch, updateMaskKeys, hk]
  refine ⟨fun _ => rfl, huntouched, ?_⟩
  intro doc
  refine ⟨huntouched doc _ _ (by simp), huntouched doc _ _ (by simp), ?_, ?_⟩ <;>
    simp [updateDocument, applyMaskedPatch, updateMaskKeys,
      convertToFirestoreFields, encodeValue?, lookupWire]

/-- Witness: a concrete stored document keeps its `destination` and
`durationDays` across a status/error update. -/
theorem updateDocument_partial_update_witness :
    updateDocument (createDocument (initialData "Kyoto, Japan" 4 0))
      [("status", .vStr "failed"), ("error", .vStr "x")] "destination" =
      createDocument (initialData "Kyoto, Japan" 4 0) "destination" ∧
    updateDocument (createDocument (initialData "Kyoto, Japan" 4 0))
      [("status", .vStr "failed"), ("error", .vStr "x")] "durationDays" =
      createDocument (initialData "Kyoto, Japan" 4 0) "durationDays" := by
  exact ⟨updateDocument_partial_update.2.1 _ _ "destination" (by simp),
    updateDocument_partial_update.2.1 _ _ "durationDays" (by simp)⟩

/-! ## C3 — retry arithmetic -/

/-- Step lemma: a successful invocation returns at once. -/
theorem retryGo_ok {E A : Type} (op : Nat → Except E A) (isR : E → Bool)
    (base attempt remaining : Nat) (a : A) (h : op attempt = .ok a) :
    retryGo op isR base attempt remaining = (.ok a, 1, 0) := by
  rw [retryGo, h]

/-- Step lemma: a failure that is non-retryable or out of attempts is
rethrown at once. -/
theorem retryGo_error_stop {E A : Type} (op : Nat → Except E A) (isR : E → Bool)
    (base attempt remaining : Nat) (e : E) (h : op attempt = .error e)
    (hcond : ¬(isR e = true ∧ 0 < remaining)) :
    retryGo op isR base attempt remaining = (.error e, 1, 0) := by
  rw [retryGo, h]
  exact dif_neg hcond

/-- Step lemma: a retryable failure with attempts remaining sleeps
`base * 2 ^ attempt` and continues. -/
theorem retryGo_error_retry {E A : Type} (op : Nat → Except E A) (isR : E → Bool)
    (base attempt remaining : Nat) (e : E) (h : op attempt = .error e)
    (hr : isR e = true) (hrem : 0 < remaining) :
    retryGo op isR base attempt remaining =
      ((retryGo op isR base (attempt + 1) (remaining - 1)).1,
       (retryGo op isR base (attempt + 1) (remaining - 1)).2.1 + 1,
       (retryGo op isR base (attempt + 1) (remaining - 1)).2.2 + base * 2 ^ attempt) := by
  rw [retryGo, h]
  exact dif_pos ⟨hr, hrem⟩

/-- After `k` retryable failures starting at `attempt` (with at least `k`
attempts remaining) followed by a success, the loop returns that success,
having invoked the operation `k + 1` times and slept the sum of the
exponential delays of attempts `attempt, …, attempt + k - 1`. -/
theorem retryGo_success {E A : Type} (op : Nat → Except E A) (isR : E → Bool)
    (base : Nat) (a : A) :
    ∀ (k attempt rem : Nat), k ≤ rem →
    (∀ i, i < k → ∃ e, op (attempt + i) = .error e ∧ isR e = true) →
    op (attempt + k) = .ok a →
    retryGo op isR base attempt rem =
      (.ok a, k + 1, ∑ i in Finset.range k, base * 2 ^ (attempt + i)) := by
  intro k
  induction k with
  | zero =>
    intro attempt rem _ _ hok
    rw [Nat.add_zero] at hok
    rw [retryGo_ok op isR base attempt rem a hok]
    simp
  | succ k ih =>
    intro attempt rem hle hfail hok
    obtain ⟨e0, he0, hr0⟩ := hfail 0 (Nat.succ_pos k)
    rw [Nat.add_zero] at he0
    obtain ⟨r, rfl⟩ : ∃ r, rem = r + 1 :=
      ⟨rem - 1, by omega⟩
    rw [retryGo_error_retry op isR base attempt (r + 1) e0 he0 hr0 (Nat.succ_pos r)]
    simp only [Nat.add_sub_cancel]
    have ihspec := ih (attempt + 1) r (by omega)
      (fun i hi => by
        obtain ⟨e, he, hr⟩ := hfail (i + 1) (by omega)
        exact ⟨e, by rwa [show attempt + 1 + i = attempt + (i + 1) by omega], hr⟩)
      (by rwa [show attempt + 1 + k = attempt + (k + 1) by omega])
    rw [ihspec]
    refine Prod.ext rfl (Prod.ext rfl ?_)
    show (∑ i in Finset.range k, base * 2 ^ (attempt + 1 + i)) + base * 2 ^ attempt =
      ∑ i in Finset.range (k + 1), base * 2 ^ (attempt + i)
    rw [Finset.sum_range_succ']
    congr 1
    refine Finset.sum_congr rfl fun i _ => ?_
    congr 1
    congr 1
    omega

/-- With every attempt up to `attempt + rem` failing retryably, the loop
exhausts its budget: `rem + 1` invocations, the last error rethrown, and
the delays of attempts `attempt, …, attempt + rem - 1` slept. -/
theorem retryGo_exhaust {E A : Type} (op : Nat → Except E A) (isR : E → Bool)
    (base : Nat) (errOf : Nat → E) :
    ∀ (rem attempt : Nat),
    (∀ i, i ≤ rem → op (attempt + i) = .error (errOf (attempt + i)) ∧
      isR (errOf (attempt + i)) = true) →
    retryGo op isR base attempt rem =
      (.error (errOf (attempt + rem)), rem + 1,
        ∑ i in Finset.range rem, base * 2 ^ (attempt + i)) := by
  intro rem
  induction rem with
  | zero =>
    intro attempt h
    obtain ⟨he, _⟩ := h 0 (Nat.le_refl 0)
    rw [Nat.add_zero] at he ⊢
    rw [retryGo_error_stop op isR base attempt 0 _ he (by simp)]
    simp
  | succ r ih =>
    intro attempt h
    obtain ⟨he0, hr0⟩ := h 0 (Nat.zero_le _)
    rw [Nat.add_zero] at he0 hr0
    rw [retryGo_error_retry op isR base attempt (r + 1) _ he0 hr0 (Nat.succ_pos r)]
    simp only [Nat.add_sub_cancel]
    have ihspec := ih (attempt + 1) (fun i hi => by
      have := h (i + 1) (by omega)
      rwa [show attempt + (i + 1) = attempt + 1 + i by omega] at this)
    rw [ihspec]
    refine Prod.ext ?_ (Prod.ext rfl ?_)
    · show Except.error (errOf (attempt + 1 + r)) = Except.error (errOf (attempt + (r + 1)))
      congr 2
      omega
    · show (∑ i in Finset.range r, base * 2 ^ (attempt + 1 + i)) + base * 2 ^ attempt =
        ∑ i in Finset.range (r + 1), base * 2 ^ (attempt + i)
      rw [Finset.sum_range_succ']
      congr 1
      refine Finset.sum_congr rfl fun i _ => ?_
      congr 1
      congr 1
      omega

/-- C3: the retry arithmetic of `retryWithBackoff`. An operation failing
retryably on its first `k` invocations (`k < maxRetries`) and then
succeeding is invoked exactly `k + 1` times, the total backoff slept is
`baseDelay * 2^0 + … + baseDelay * 2^(k-1)`, and the success result is
returned; an operation whose first failure is non-retryable is invoked
exactly once, with that error rethrown unchanged and nothing slept; an
operation failing retryably on every attempt is invoked exactly
`maxRetries + 1` times and the last error observed is rethrown
unchanged. -/
theorem retryWithBackoff_spec {E A : Type} (op : Nat → Except E A)
    (maxRetries baseDelay : Nat) (isRetryable : E → Bool) :
    (∀ (k : Nat) (a : A), k < maxRetries →
      (∀ i, i < k → ∃ e, op i = .error e ∧ isRetryable e = true) →
      op k = .ok a →
      retryWithBackoff op maxRetries baseDelay isRetryable =
        (.ok a, k + 1, ∑ i in Finset.range k, baseDelay * 2 ^ i)) ∧
    (∀ e : E, op 0 = .error e → isRetryable e = false →
      retryWithBackoff op maxRetries baseDelay isRetryable = (.error e, 1, 0)) ∧
    (∀ errOf : Nat → E,
      (∀ i, i ≤ maxRetries → op i = .error (errOf i) ∧
        isRetryable (errOf i) = true) →
      retryWithBackoff op maxRetries baseDelay isRetryable =
        (.error (errOf maxRetries), maxRetries + 1,
          ∑ i in Finset.range maxRetries, baseDelay * 2 ^ i)) := by
  refine ⟨?_, ?_, ?_⟩
  · intro k a hk hfail hok
    have h := retryGo_success op isRetryable baseDelay a k 0 maxRetries (by omega)
      (fun i hi => by simpa using hfail i hi) (by simpa using hok)
    simpa using h
  · intro e he hnr
    rw [retryWithBackoff,
      retryGo_error_stop op isRetryable baseDelay 0 maxRetries e he (by simp [hnr])]
  · intro errOf h
    have hgo := retryGo_exhaust op isRetryable baseDelay errOf maxRetries 0
      (fun i hi => by simpa using h i hi)
    simpa using hgo

/-- Witness: with `maxRetries = 3`, `baseDelay = 1000` — two retryable
failures then success costs 3 invocations and 3000ms of backoff; a
non-retryable first failure costs exactly one invocation and no wait;
persistent retryable failure costs 4 invocations and rethrows the last
error. -/
theorem retryWithBackoff_spec_witness :
    retryWithBackoff (fun i => match i with
        | 0 => Except.error "e0"
        | 1 => Except.error "e1"
        | _ => Except.ok 42)
      3 1000 (fun _ => true) = (.ok 42, 3, 3000) ∧
    retryWithBackoff (fun _ => (Except.error "boom" : Except String Nat))
      3 1000 (fun _ => false) = (.error "boom", 1, 0) ∧
    retryWithBackoff (fun i => (Except.error (toString i) : Except String Nat))
      3 1000 (fun _ => true) = (.error (toString 3), 4, 7000) := by
  refine ⟨?_, ?_, ?_⟩
  · have h := (retryWithBackoff_spec (fun i => match i with
        | 0 => Except.error "e0"
        | 1 => Except.error "e1"
        | _ => Except.ok 42) 3 1000 (fun _ => true)).1 2 42 (by omega)
      (fun i hi => by
        interval_cases i
        · exact ⟨"e0", rfl, rfl⟩
        · exact ⟨"e1", rfl, rfl⟩)
      rfl
    rw [h]
    norm_num [Finset.sum_range_succ]
  · exact (retryWithBackoff_spec _ 3 1000 (fun _ => false)).2.1 "boom" rfl rfl
  · have h := (retryWithBackoff_spec
        (fun i => (Except.error (toString i) : Except String Nat))
        3 1000 (fun _ => true)).2.2 toString (fun i _ => ⟨rfl, rfl⟩)
    rw [h]
    norm_num [Finset.sum_range_succ]

/-! ## C6 — failure classification of the generation client -/

/-- A character absent from the text is never found. -/
theorem indexOfChar_eq_none {ch : Char} :
    ∀ {cs : List Char}, ch ∉ cs → indexOfChar ch cs = none := by
  intro cs
  induction cs with
  | nil => intro _; rfl
  | cons c cs ih =>
    intro h
    rw [List.mem_cons, not_or] at h
    rw [indexOfChar, if_neg (by intro hc; exact h.1 hc.symm), ih h.2]
    rfl

/-- A text missing either bracket yields no candidate JSON. -/
theorem extractBracket_eq_none {content : String}
    (h : '[' ∉ content.data ∨ ']' ∉ content.data) :
    extractBracket content = none := by
  rcases h with h | h
  · have h1 : indexOfChar '[' content.data = none := indexOfChar_eq_none h
    simp only [extractBracket, h1]
  · have h2 : indexOfChar ']' content.data.reverse = none :=
      indexOfChar_eq_none (by simpa using h)
    simp only [extractBracket, h2]
    cases indexOfChar '[' content.data <;> rfl

/-- C6: the generation client classifies failures exactly as specified —
a 429 or 5xx response is retryable; any other non-2xx response is fatal
(and a fatal error makes `retryWithBackoff` stop after a single
invocation with the error unchanged); missing response content is fatal;
a response text without a bracket pair is retryable; a JSON parse failure
of the extracted substring is retryable; and a schema-validation failure
is retryable, its message carrying the validation diagnostic. -/
theorem generateItinerary_classification
    (parseJSON : String → Option JSVal) (validationDiag : JSVal → String) :
    (∀ (status : Nat) (body : String), status = 429 ∨ 500 ≤ status →
      generateAttempt parseJSON validationDiag (.httpError status body) =
        .error (.retryable ("OpenAI service error: " ++ toString status))) ∧
    (∀ (status : Nat) (body : String), status ≠ 429 → status < 500 →
      generateAttempt parseJSON validationDiag (.httpError status body) =
        .error (.fatal ("OpenAI API error: " ++ toString status ++ " - " ++ body))) ∧
    (∀ (msg : String) (maxRetries baseDelay : Nat),
      GenError.isRetryableError (.fatal msg) = false ∧
      retryWithBackoff (fun _ => (.error (.fatal msg) : Except GenError JSVal))
        maxRetries baseDelay GenError.isRetryableError =
        (.error (.fatal msg), 1, 0)) ∧
    (generateAttempt parseJSON validationDiag (.ok none) =
      .error (.fatal "Invalid response structure from OpenAI API")) ∧
    (∀ content : String, content ≠ "" →
      ('[' ∉ content.data ∨ ']' ∉ content.data) →
      generateAttempt parseJSON validationDiag (.ok (some content)) =
        .error (.retryable "LLM response did not contain a valid JSON array.")) ∧
    (∀ (content jsonString : String), content ≠ "" →
      extractBracket content = some jsonString → parseJSON jsonString = none →
      generateAttempt parseJSON validationDiag (.ok (some content)) =
        .error (.retryable "LLM returned invalid JSON format even after cleaning.")) ∧
    (∀ (content jsonString : String) (itin : JSVal), content ≠ "" →
      extractBracket content = some jsonString → parseJSON jsonString = some itin →
      ItinerarySchema itin = false →
      generateAttempt parseJSON validationDiag (.ok (some content)) =
        .error (.retryable ("Generated itinerary does not match required format: " ++
          validationDiag itin))) := by
  refine ⟨?_, ?_, ?_, ?_, ?_, ?_, ?_⟩
  · intro status body h
    simp [generateAttempt, h]
  · intro status body h1 h2
    simp [generateAttempt, h1, (by omega : ¬ 500 ≤ status)]
    omega
  · intro msg maxRetries baseDelay
    refine ⟨rfl, ?_⟩
    rw [retryWithBackoff,
      retryGo_error_stop _ GenError.isRetryableError baseDelay 0 maxRetries _ rfl
        (by simp [GenError.isRetryableError])]
  · rfl
  · intro content hne hbr
    simp [generateAttempt, hne, extractBracket_eq_none hbr]
  · intro content jsonString hne hext hparse
    simp [generateAttempt, hne, hext, hparse]
  · intro content jsonString itin hne hext hparse hval
    simp [generateAttempt, hne, hext, hparse, hval]

/-- Witness: each classification branch at a concrete response. -/
theorem generateItinerary_classification_witness :
    generateAttempt (fun _ => none) (fun _ => "diag") (.httpError 429 "rate") =
      .error (.retryable ("OpenAI service error: " ++ toString 429)) ∧
    generateAttempt (fun _ => none) (fun _ => "diag") (.httpError 401 "denied") =
      .error (.fatal ("OpenAI API error: " ++ toString 401 ++ " - " ++ "denied")) ∧
    generateAttempt (fun _ => none) (fun _ => "diag") (.ok (some "no json here")) =
      .error (.retryable "LLM response did not contain a valid JSON array.") ∧
    generateAttempt (fun _ => none) (fun _ => "diag") (.ok (some "x[1]y")) =
      .error (.retryable "LLM returned invalid JSON format even after cleaning.") ∧
    generateAttempt (fun _ => some (.vObj [])) (fun _ => "diag") (.ok (some "x[]y")) =
      .error (.retryable ("Generated itinerary does not match required format: " ++
        "diag")) := by
  refine ⟨?_, ?_, ?_, ?_, ?_⟩
  · exact (generateItinerary_classification (fun _ => none) (fun _ => "diag")).1
      429 "rate" (Or.inl rfl)
  · exact (generateItinerary_classification (fun _ => none) (fun _ => "diag")).2.1
      401 "denied" (by decide) (by decide)
  · exact (generateItinerary_classification
      (fun _ => none) (fun _ => "diag")).2.2.2.2.1 "no json here" (by decide)
      (Or.inl (by decide))
  · exact (generateItinerary_classification
      (fun _ => none) (fun _ => "diag")).2.2.2.2.2.1 "x[1]y" "[1]" (by decide)
      (by rfl) rfl
  · exact (generateItinerary_classification
      (fun _ => some (.vObj [])) (fun _ => "diag")).2.2.2.2.2.2 "x[]y" "[]"
      (.vObj []) (by decide) (by rfl) rfl (by rfl)

/-! ## C4, C5 — the background task and the job lifecycle -/

/-- Fields of the freshly created job document. -/
theorem initialDoc_fields (destination : String) (durationDays now : Int) :
    createDocument (initialData destination durationDays now) "status" =
      some (.stringValue "processing") ∧
    createDocument (initialData destination durationDays now) "itinerary" =
      some .nullValue ∧
    createDocument (initialData destination durationDays now) "error" =
      some .nullValue ∧
    createDocument (initialData destination durationDays now) "completedAt" =
      some .nullValue := by
  refine ⟨?_, ?_, ?_, ?_⟩ <;>
    simp [createDocument, initialData, convertToFirestoreFields, encodeValue?, lookupWire]

/-- Fields after the success update of the background task. -/
theorem completed_update_fields (doc0 : StoreDoc) (destination : String)
    (durationDays : Int) (tDone : Int) (itinerary : JSVal) :
    updateDocument doc0 (completedData destination durationDays tDone itinerary)
      "status" = some (.stringValue "completed") ∧
    updateDocument doc0 (completedData destination durationDays tDone itinerary)
      "completedAt" = some (.timestampValue tDone) ∧
    updateDocument doc0 (completedData destination durationDays tDone itinerary)
      "itinerary" = encodeValue? itinerary ∧
    updateDocument doc0 (completedData destination durationDays tDone itinerary)
      "error" = some .nullValue := by
  refine ⟨?_, ?_, ?_, ?_⟩
  · simp [updateDocument, applyMaskedPatch, updateMaskKeys, completedData,
      convertToFirestoreFields, encodeValue?, lookupWire]
  · simp [updateDocument, applyMaskedPatch, updateMaskKeys, completedData,
      convertToFirestoreFields, encodeValue?, lookupWire]
  · cases henc : encodeValue? itinerary <;>
      simp [updateDocument, applyMaskedPatch, updateMaskKeys, completedData,
        convertToFirestoreFields, encodeValue?, lookupWire, henc]
  · cases henc : encodeValue? itinerary <;>
      simp [updateDocument, applyMaskedPatch, updateMaskKeys, completedData,
        convertToFirestoreFields, encodeValue?, lookupWire, henc]

/-- Fields after the failure update of the background task: status,
completedAt and error are written; every other field — `itinerary` and
`destination` among them — is untouched. -/
theorem failed_update_fields (doc0 : StoreDoc) (tFail : Int) (msg : String) :
    updateDocument doc0 (failedData tFail msg) "status" =
      some (.stringValue "failed") ∧
    updateDocument doc0 (failedData tFail msg) "completedAt" =
      some (.timestampValue tFail) ∧
    updateDocument doc0 (failedData tFail msg) "error" =
      some (.stringValue msg) ∧
    updateDocument doc0 (failedData tFail msg) "itinerary" = doc0 "itinerary" ∧
    updateDocument doc0 (failedData tFail msg) "destination" = doc0 "destination" ∧
    updateDocument doc0 (failedData tFail msg) "durationDays" = doc0 "durationDays" := by
  refine ⟨?_, ?_, ?_, ?_, ?_, ?_⟩ <;>
    simp [updateDocument, applyMaskedPatch, updateMaskKeys, failedData,
      convertToFirestoreFields, encodeValue?, lookupWire]

/-- Case analysis of one background run: the document fields after each
combination of generation outcome and store-write outcomes. -/
theorem processItinerary_run_fields (doc0 : StoreDoc)
    (destination : String) (durationDays : Int) (env : BackgroundEnv) :
    (∀ itin, env.genResult = .ok itin → env.completedOk = true →
      processItinerary doc0 destination durationDays env "status" =
        some (.stringValue "completed") ∧
      processItinerary doc0 destination durationDays env "completedAt" =
        some (.timestampValue env.tDone) ∧
      processItinerary doc0 destination durationDays env "itinerary" =
        encodeValue? itin ∧
      processItinerary doc0 destination durationDays env "error" =
        some .nullValue) ∧
    (∀ msg, env.genResult = .error msg → env.failedOk = true →
      processItinerary doc0 destination durationDays env "status" =
        some (.stringValue "failed") ∧
      processItinerary doc0 destination durationDays env "completedAt" =
        some (.timestampValue env.tFail) ∧
      processItinerary doc0 destination durationDays env "error" =
        some (.stringValue msg)) ∧
    (∀ itin, env.genResult = .ok itin → env.completedOk = false →
      env.failedOk = true →
      processItinerary doc0 destination durationDays env "status" =
        some (.stringValue "failed") ∧
      processItinerary doc0 destination durationDays env "completedAt" =
        some (.timestampValue env.tFail) ∧
      processItinerary doc0 destination durationDays env "error" =
        some (.stringValue env.storeMsg)) ∧
    (∀ msg, env.genResult = .error msg → env.failedOk = false →
      processItineraryUpdates destination durationDays env = [] ∧
      processItinerary doc0 destination durationDays env = doc0) ∧
    (∀ itin, env.genResult = .ok itin → env.completedOk = false →
      env.failedOk = false →
      processItineraryUpdates destination durationDays env = [] ∧
      processItinerary doc0 destination durationDays env = doc0) := by
  refine ⟨?_, ?_, ?_, ?_, ?_⟩
  · intro itin hgen hok
    have hupd : processItineraryUpdates destination durationDays env =
        [completedData destination durationDays env.tDone itin] := by
      simp [processItineraryUpdates, processTryBody, hgen, hok]
    simp only [processItinerary, hupd, List.foldl_cons, List.foldl_nil]
    exact completed_update_fields doc0 destination durationDays env.tDone itin
  · intro msg hgen hfail
    have hupd : processItineraryUpdates destination durationDays env =
        [failedData env.tFail msg] := by
      simp [processItineraryUpdates, processTryBody, hgen, processCatch, hfail]
    simp only [processItinerary, hupd, List.foldl_cons, List.foldl_nil]
    have h := failed_update_fields doc0 env.tFail msg
    exact ⟨h.1, h.2.1, h.2.2.1⟩
  · intro itin hgen hnok hfail
    have hupd : processItineraryUpdates destination durationDays env =
        [failedData env.tFail env.storeMsg] := by
      simp [processItineraryUpdates, processTryBody, hgen, hnok, processCatch, hfail]
    simp only [processItinerary, hupd, List.foldl_cons, List.foldl_nil]
    have h := failed_update_fields doc0 env.tFail env.storeMsg
    exact ⟨h.1, h.2.1, h.2.2.1⟩
  · intro msg hgen hfail
    have hupd : processItineraryUpdates destination durationDays env = [] := by
      simp [processItineraryUpdates, processTryBody, hgen, processCatch, hfail]
    exact ⟨hupd, by simp [processItinerary, hupd]⟩
  · intro itin hgen hnok hfail
    have hupd : processItineraryUpdates destination durationDays env = [] := by
      simp [processItineraryUpdates, processTryBody, hgen, hnok, processCatch, hfail]
    exact ⟨hupd, by simp [processItinerary, hupd]⟩

/-- C4: the background task is total (every failure is caught) and drives
the document as specified — on success and a successful write, the
document reaches status=completed with completedAt set, itinerary the
generated result and error=null; on a generation error, or on the
completed-update itself failing, and a successful failure write, it
reaches status=failed with completedAt set and error the diagnostic
message; and when even the failure write fails the run applies no update
at all — the error is swallowed, nothing escalates. -/
theorem processItinerary_background_contract (doc0 : StoreDoc)
    (destination : String) (durationDays : Int) (env : BackgroundEnv) :
    (∀ itin, env.genResult = .ok itin → env.completedOk = true →
      processItinerary doc0 destination durationDays env "status" =
        some (.stringValue "completed") ∧
      processItinerary doc0 destination durationDays env "completedAt" =
        some (.timestampValue env.tDone) ∧
      processItinerary doc0 destination durationDays env "itinerary" =
        encodeValue? itin ∧
      processItinerary doc0 destination durationDays env "error" =
        some .nullValue) ∧
    (∀ msg, env.genResult = .error msg → env.failedOk = true →
      processItinerary doc0 destination durationDays env "status" =
        some (.stringValue "failed") ∧
      processItinerary doc0 destination durationDays env "completedAt" =
        some (.timestampValue env.tFail) ∧
      processItinerary doc0 destination durationDays env "error" =
        some (.stringValue msg)) ∧
    (∀ itin, env.genResult = .ok itin → env.completedOk = false →
      env.failedOk = true →
      processItinerary doc0 destination durationDays env "status" =
        some (.stringValue "failed") ∧
      processItinerary doc0 destination durationDays env "completedAt" =
        some (.timestampValue env.tFail) ∧
      processItinerary doc0 destination durationDays env "error" =
        some (.stringValue env.storeMsg)) ∧
    (∀ msg, env.genResult = .error msg → env.failedOk = false →
      processItineraryUpdates destination durationDays env = [] ∧
      processItinerary doc0 destination durationDays env = doc0) ∧
    (∀ itin, env.genResult = .ok itin → env.completedOk = false →
      env.failedOk = false →
      processItineraryUpdates destination durationDays env = [] ∧
      processItinerary doc0 destination durationDays env = doc0) :=
  processItinerary_run_fields doc0 destination durationDays env

/-- Witness: a successful run reaches `completed` with the encoded
itinerary, and a run whose generation fails (with the failure write
succeeding) reaches `failed` with the message recorded. -/
theorem processItinerary_background_contract_witness :
    processItinerary (createDocument (initialData "Kyoto, Japan" 4 0))
      "Kyoto, Japan" 4 ⟨.ok (.vArr [.vObj [("day", .vInt 1)]]), true, true, "sm", 5, 6⟩
      "status" = some (.stringValue "completed") ∧
    processItinerary (createDocument (initialData "Kyoto, Japan" 4 0))
      "Kyoto, Japan" 4 ⟨.error "LLM exhausted", true, true, "sm", 5, 6⟩
      "status" = some (.stringValue "failed") ∧
    processItinerary (createDocument (initialData "Kyoto, Japan" 4 0))
      "Kyoto, Japan" 4 ⟨.error "LLM exhausted", true, true, "sm", 5, 6⟩
      "error" = some (.stringValue "LLM exhausted") := by
  refine ⟨?_, ?_, ?_⟩
  · exact ((processItinerary_background_contract _ "Kyoto, Japan" 4 _).1
      (.vArr [.vObj [("day", .vInt 1)]]) rfl rfl).1
  · exact ((processItinerary_background_contract _ "Kyoto, Japan" 4 _).2.1
      "LLM exhausted" rfl rfl).1
  · exact ((processItinerary_background_contract _ "Kyoto, Japan" 4 _).2.1
      "LLM exhausted" rfl rfl).2.2

/-- A schema-valid itinerary is a (non-empty) array, so its encoding is
an `arrayValue` — never the null tag. -/
theorem ItinerarySchema_encodes_nonnull {itin : JSVal}
    (h : ItinerarySchema itin = true) :
    ∃ ws, encodeValue? itin = some (.arrayValue ws) := by
  cases itin
  case vArr xs => exact ⟨encodeItems xs, by simp [encodeValue?]⟩
  all_goals simp [ItinerarySchema] at h

/-- C5: over every reachable job-document state — the creation state and
every state a background run produces — `itinerary` is non-null exactly
when `status = completed` and `error` is non-null exactly when
`status = failed`; moreover the document starts at `processing` and a
background run applies at most one update, which sets status to
`completed` or to `failed`. -/
theorem jobDocument_invariant (destination : String) (durationDays : Int) :
    (∀ doc : StoreDoc, ReachableDoc destination durationDays doc →
      ((∃ w, doc "itinerary" = some w ∧ w ≠ .nullValue) ↔
        doc "status" = some (.stringValue "completed")) ∧
      ((∃ w, doc "error" = some w ∧ w ≠ .nullValue) ↔
        doc "status" = some (.stringValue "failed"))) ∧
    (∀ now : Int, createDocument (initialData destination durationDays now)
      "status" = some (.stringValue "processing")) ∧
    (∀ env : BackgroundEnv,
      (processItineraryUpdates destination durationDays env).length ≤ 1 ∧
      ∀ upd ∈ processItineraryUpdates destination durationDays env,
        lookupField upd "status" = some (.vStr "completed") ∨
        lookupField upd "status" = some (.vStr "failed")) := by
  refine ⟨?_, ?_, ?_⟩
  · intro doc h
    cases h with
    | created now =>
      obtain ⟨hst, hit, herr, _⟩ := initialDoc_fields destination durationDays now
      rw [hst, hit, herr]
      constructor <;> simp
    | processed now env hval =>
      set doc0 := createDocument (initialData destination durationDays now) with hdoc0
      obtain ⟨hst0, hit0, herr0, _⟩ := initialDoc_fields destination durationDays now
      have hcontract := processItinerary_run_fields doc0
        destination durationDays env
      rcases hgen : env.genResult with msg | itin
      · rcases hfok : env.failedOk with _ | _
        · obtain ⟨-, heq⟩ := hcontract.2.2.2.1 msg hgen hfok
          rw [heq, hdoc0, hst0, hit0, herr0]
          constructor <;> simp
        · obtain ⟨hst, hcat, herr⟩ := hcontract.2.1 msg hgen hfok
          have hupd : processItineraryUpdates destination durationDays env =
              [failedData env.tFail msg] := by
            simp [processItineraryUpdates, processTryBody, hgen, processCatch, hfok]
          have hit : processItinerary doc0 destination durationDays env "itinerary" =
              some .nullValue := by
            simp only [processItinerary, hupd, List.foldl_cons, List.foldl_nil]
            rw [(failed_update_fields doc0 env.tFail msg).2.2.2.1, hdoc0, hit0]
          rw [hst, hit, herr]
          constructor <;> simp
      · have hschema : ItinerarySchema itin = true := hval itin hgen
        obtain ⟨ws, henc⟩ := ItinerarySchema_encodes_nonnull hschema
        rcases hcok : env.completedOk with _ | _
        · rcases hfok : env.failedOk with _ | _
          · obtain ⟨-, heq⟩ := hcontract.2.2.2.2 itin hgen hcok hfok
            rw [heq, hdoc0, hst0, hit0, herr0]
            constructor <;> simp
          · obtain ⟨hst, hcat, herr⟩ := hcontract.2.2.1 itin hgen hcok hfok
            have hupd : processItineraryUpdates destination durationDays env =
                [failedData env.tFail env.storeMsg] := by
              simp [processItineraryUpdates, processTryBody, hgen, hcok,
                processCatch, hfok]
            have hit : processItinerary doc0 destination durationDays env
                "itinerary" = some .nullValue := by
              simp only [processItinerary, hupd, List.foldl_cons, List.foldl_nil]
              rw [(failed_update_fields doc0 env.tFail env.storeMsg).2.2.2.1,
                hdoc0, hit0]
            rw [hst, hit, herr]
            constructor <;> simp
        · obtain ⟨hst, hcat, hit, herr⟩ := hcontract.1 itin hgen hcok
          rw [hst, hit, herr, henc]
          constructor <;> simp
  · intro now
    exact (initialDoc_fields destination durationDays now).1
  · intro env
    rcases hgen : env.genResult with msg | itin
    · rcases hfok : env.failedOk with _ | _ <;>
        · constructor <;>
            simp [processItineraryUpdates, processTryBody, hgen, processCatch,
              hfok, failedData, lookupField]
    · rcases hcok : env.completedOk with _ | _
      · rcases hfok : env.failedOk with _ | _ <;>
          · constructor <;>
              simp [processItineraryUpdates, processTryBody, hgen, hcok,
                processCatch, hfok, failedData, lookupField]
      · constructor <;>
          simp [processItineraryUpdates, processTryBody, hgen, hcok,
            completedData, lookupField]

/-- Witness: the invariant at the creation state of a concrete job. -/
theorem jobDocument_invariant_witness :
    ((∃ w, createDocument (initialData "Kyoto, Japan" 4 0) "itinerary" = some w ∧
        w ≠ .nullValue) ↔
      createDocument (initialData "Kyoto, Japan" 4 0) "status" =
        some (.stringValue "completed")) ∧
    ((∃ w, createDocument (initialData "Kyoto, Japan" 4 0) "error" = some w ∧
        w ≠ .nullValue) ↔
      createDocument (initialData "Kyoto, Japan" 4 0) "status" =
        some (.stringValue "failed")) :=
  (jobDocument_invariant "Kyoto, Japan" 4).1 _ (ReachableDoc.created 0)
